import Mathlib

/-!
Shallow embedding of a personal finance tracker backend:
- src/Kip/routes/transactions.js  (transaction listing, lookup, update, delete)
- src/Cuong/middleware/auth.js    (auth gate and role gate)
- src/Cuong/models/User.js        (user model, pre-save password hashing hook)

Machine integers and dates are modelled as Nat / Int (epoch milliseconds for
dates); the persistence layer is modelled as a plain list of records; the
MongoDB query object built by the list route is modelled as a boolean
predicate over records, one named condition per query field the code sets.
-/

namespace FinanceApp

/-- A transaction record: owning user id, kind (thu = income / chi = expense),
category label, amount, description, date (epoch milliseconds), keyed by an
opaque id. Mirrors the fields the routes read and write. -/
structure Txn where
  id : Nat
  user : Nat
  type : String
  category : String
  amount : Int
  description : String
  date : Int
deriving DecidableEq

/-- The optional query parameters of GET /api/transactions
(page, limit, type, category, startDate, endDate, search, sort). -/
structure ListParams where
  page : Option Nat
  limit : Option Nat
  type : Option String
  category : Option String
  startDate : Option Int
  endDate : Option Int
  search : Option String
  sort : Option String
deriving DecidableEq

/-- JavaScript truthiness of an optional string parameter: absent and the
empty string are both falsy, which is how the route guards each filter. -/
def jsTruthy : Option String → Bool
  | none => false
  | some s => s != ""

/-- Whether pat occurs as a contiguous run inside the second list. -/
def containsSub (pat : List Char) : List Char → Bool
  | [] => pat.isEmpty
  | c :: rest => pat.isPrefixOf (c :: rest) || containsSub pat rest

/-- Case-insensitive substring containment: the semantics of the route
search condition, a Mongo regex with option i applied to a plain text
needle (both sides lowered character-wise). -/
def icontains (hay pat : String) : Bool :=
  containsSub (pat.data.map Char.toLower) (hay.data.map Char.toLower)

/-- Condition added when req.query.type is truthy: exact equality on kind. -/
def typeCond (p : ListParams) (t : Txn) : Bool :=
  match p.type with
  | some ty => if ty = "" then true else t.type == ty
  | none => true

/-- Condition added when req.query.category is truthy: the code assigns
the raw value, an exact equality match. -/
def categoryCond (p : ListParams) (t : Txn) : Bool :=
  match p.category with
  | some c => if c = "" then true else t.category == c
  | none => true

/-- Condition added when startDate or endDate is present: a gte bound for
startDate and an lte bound for endDate, each only when supplied. -/
def dateCond (p : ListParams) (t : Txn) : Bool :=
  if p.startDate.isSome || p.endDate.isSome then
    (match p.startDate with
     | some d1 => decide (d1 ≤ t.date)
     | none => true)
    &&
    (match p.endDate with
     | some d2 => decide (t.date ≤ d2)
     | none => true)
  else true

/-- Condition added when req.query.search is truthy: description or
category matches the needle case-insensitively. -/
def searchCond (p : ListParams) (t : Txn) : Bool :=
  match p.search with
  | some s => if s = "" then true else (icontains t.description s || icontains t.category s)
  | none => true

/-- The composed query object of the list route: ownership and the four
optional filter conditions, conjoined. -/
def matchesQuery (uid : Nat) (p : ListParams) (t : Txn) : Bool :=
  (t.user == uid) && typeCond p t && categoryCond p t && dateCond p t && searchCond p t

/-- Insert a record into a list sorted by le. -/
def insertSorted (le : Txn → Txn → Bool) (x : Txn) : List Txn → List Txn
  | [] => [x]
  | y :: ys => if le x y then x :: y :: ys else y :: insertSorted le x ys

/-- Sort a list of records by le (insertion sort). The store sort order on
ties is unspecified, so any comparison-sort is a faithful model. -/
def sortBy (le : Txn → Txn → Bool) : List Txn → List Txn
  | [] => []
  | x :: xs => insertSorted le x (sortBy le xs)

/-- The four sort keys accepted by the route: date / -date / amount /
-amount; the fallback branch is the default key -date (descending date). -/
def sortTxns (key : String) (l : List Txn) : List Txn :=
  if key = "date" then sortBy (fun a b => decide (a.date ≤ b.date)) l
  else if key = "amount" then sortBy (fun a b => decide (a.amount ≤ b.amount)) l
  else if key = "-amount" then sortBy (fun a b => decide (b.amount ≤ a.amount)) l
  else sortBy (fun a b => decide (b.date ≤ a.date)) l

/-- req.query.sort with the default: falsy (absent or empty) gives -date. -/
def sortKeyOf (p : ListParams) : String :=
  match p.sort with
  | some s => if s = "" then "-date" else s
  | none => "-date"

/-- parseInt(req.query.limit) with fallback 10; the validator has already
enforced 1..100 on a supplied value. -/
def limitOf (p : ListParams) : Nat :=
  p.limit.getD 10

/-- parseInt(req.query.page) with fallback 1; the validator has already
enforced a minimum of 1 on a supplied value. -/
def pageOf (p : ListParams) : Nat :=
  p.page.getD 1

/-- The list route response body: count, total, page, pages, data. -/
structure ListResponse where
  count : Nat
  total : Nat
  page : Nat
  pages : Nat
  data : List Txn
deriving DecidableEq

/-- GET /api/transactions: build the query, sort, skip (page-1)*limit,
take limit, count the filtered set ignoring pagination, and report
pages = ceil(total / limit) (for limit ≥ 1 the natural-number formula
(total + limit - 1) / limit equals the real ceiling). -/
def listTransactions (store : List Txn) (uid : Nat) (p : ListParams) : ListResponse :=
  let page := pageOf p
  let limit := limitOf p
  let skip := (page - 1) * limit
  let filtered := List.filter (matchesQuery uid p) store
  let sorted := sortTxns (sortKeyOf p) filtered
  let data := (sorted.drop skip).take limit
  { count := data.length
    total := filtered.length
    page := page
    pages := (filtered.length + limit - 1) / limit
    data := data }

/-- The same request with the page parameter replaced. -/
def setPage (p : ListParams) (n : Nat) : ListParams :=
  { p with page := some n }

/-- The filtered-and-sorted set a list request paginates over. -/
def sortedFiltered (store : List Txn) (uid : Nat) (p : ListParams) : List Txn :=
  sortTxns (sortKeyOf p) (List.filter (matchesQuery uid p) store)

/-- An error response: HTTP status and message. -/
structure ErrResponse where
  status : Nat
  message : String
deriving DecidableEq

/-- The 404 body shared verbatim by the get / update / delete routes. -/
def notFoundResp : ErrResponse :=
  { status := 404, message := "Không tìm thấy giao dịch" }

/-- Transaction.findOne with filter id and user: the first record matching
both the record id and the owning user. -/
def findOne (store : List Txn) (i uid : Nat) : Option Txn :=
  List.find? (fun x => x.id == i && x.user == uid) store

/-- GET /api/transactions/id: owner-scoped lookup; a miss is the 404
response. -/
def getById (store : List Txn) (uid i : Nat) : Except ErrResponse Txn :=
  match findOne store i uid with
  | none => Except.error notFoundResp
  | some t => Except.ok t

/-- The request body of PUT /api/transactions/id: each field optional. -/
structure UpdateBody where
  user : Option Nat
  type : Option String
  category : Option String
  amount : Option Int
  description : Option String
  date : Option Int
deriving DecidableEq

/-- findByIdAndUpdate applies the body as a field-wise set: each supplied
field takes the new value, each absent field keeps the stored value. -/
def applyUpdate (t : Txn) (b : UpdateBody) : Txn :=
  { id := t.id
    user := b.user.getD t.user
    type := b.type.getD t.type
    category := b.category.getD t.category
    amount := b.amount.getD t.amount
    description := b.description.getD t.description
    date := b.date.getD t.date }

/-- PUT /api/transactions/id: owner-scoped findOne guard, then
findByIdAndUpdate on the record with that id, returning the updated
document and the resulting store; a guard miss is the 404 response and
leaves the store untouched. -/
def updateById (store : List Txn) (uid i : Nat) (b : UpdateBody) :
    Except ErrResponse Txn × List Txn :=
  match findOne store i uid with
  | none => (Except.error notFoundResp, store)
  | some t =>
    (Except.ok (applyUpdate t b),
     store.map (fun x => if x.id == i then applyUpdate x b else x))

/-- DELETE /api/transactions/id: owner-scoped findOne guard, then
deleteOne on the found document; a guard miss is the 404 response and
leaves the store untouched. -/
def deleteById (store : List Txn) (uid i : Nat) :
    Except ErrResponse Unit × List Txn :=
  match findOne store i uid with
  | none => (Except.error notFoundResp, store)
  | some t => (Except.ok (), store.filter (fun x => x.id != t.id))

/-- The decoded JWT payload the middleware reads: the subject user id and
an email snapshot. -/
structure Claims where
  id : Nat
  email : String
deriving DecidableEq

/-- The user record attached to the request (password excluded by the
select). -/
structure UserRec where
  id : Nat
  name : String
  email : String
  role : String
deriving DecidableEq

/-- Outcome of the protect middleware: one of the three 401 rejections,
or success with the resolved principal. -/
inductive AuthResult where
  | unauthenticated
  | invalidToken
  | unknownPrincipal
  | success (u : UserRec)
deriving DecidableEq

/-- Whether a string begins with the given characters (String.startsWith,
stated over the character lists so it evaluates). -/
def jsStartsWith (s pre : String) : Bool :=
  pre.data.isPrefixOf s.data

/-- JavaScript split on a single space character: every space starts a new
part, and consecutive spaces produce empty parts. -/
def splitOnSpace : List Char → List (List Char)
  | [] => [[]]
  | c :: rest =>
    match splitOnSpace rest with
    | [] => [[c]]
    | w :: ws => if c = ' ' then [] :: w :: ws else (c :: w) :: ws

/-- The parts of header.split, as strings. -/
def splitParts (h : String) : List String :=
  (splitOnSpace h.data).map String.mk

/-- Token extraction of the protect middleware: the cookie when truthy,
otherwise the second space-separated part of a Bearer-prefixed
Authorization header, otherwise nothing. (An empty header string never
starts with Bearer, so its truthiness check is absorbed.) -/
def extractToken (cookie authHeader : Option String) : Option String :=
  if jsTruthy cookie then cookie
  else
    match authHeader with
    | some h => if jsStartsWith h "Bearer" then (splitParts h).get? 1 else none
    | none => none

/-- The protect middleware. jwt.verify (none models a thrown error) and
User.findById are external collaborators, passed as functions; the guard
on the extracted token is JavaScript falsiness, so a missing token and an
empty-string token both reject before either collaborator is consulted. -/
def protect (cookie authHeader : Option String)
    (verify : String → Option Claims) (findById : Nat → Option UserRec) : AuthResult :=
  match extractToken cookie authHeader with
  | none => AuthResult.unauthenticated
  | some tok =>
    if tok = "" then AuthResult.unauthenticated
    else
      match verify tok with
      | none => AuthResult.invalidToken
      | some decoded =>
        match findById decoded.id with
        | none => AuthResult.unknownPrincipal
        | some u => AuthResult.success u

/-- The HTTP status the middleware itself responds with: 401 on each
failure, nothing on success (the handler chain continues). -/
def statusOf : AuthResult → Option Nat
  | AuthResult.unauthenticated => some 401
  | AuthResult.invalidToken => some 401
  | AuthResult.unknownPrincipal => some 401
  | AuthResult.success _ => none

/-- Whether the middleware rejected the request. -/
def isAuthFailure : AuthResult → Bool
  | AuthResult.success _ => false
  | _ => true

/-- A token payload: either malformed, or well-formed claims with subject
id, email, issued-at and expiry. -/
inductive TokenPayload where
  | malformed
  | wellFormed (id : Nat) (email : String) (iat : Int) (exp : Int)
deriving DecidableEq

/-- A presented token: a payload plus a signature value. -/
structure SignedToken where
  payload : TokenPayload
  sig : Nat
deriving DecidableEq

/-- Modelled from the spec: the Token Service verify operation lives in
the external jsonwebtoken library, not in src. Per the spec it checks
signature validity and expiry and rejects (InvalidToken, here none) when
the signature does not match, the payload is malformed, or the expiry has
passed; its only inputs are the signing function of the process-wide
secret, the current time, and the token itself — no persistent store. -/
def verifyToken (sigOf : TokenPayload → Nat) (now : Int) (t : SignedToken) :
    Option (Nat × String) :=
  if t.sig ≠ sigOf t.payload then none
  else
    match t.payload with
    | TokenPayload.malformed => none
    | TokenPayload.wellFormed i e _iat ex =>
      if ex ≤ now then none else some (i, e)

/-- The pre-save hook of the User model. The isModified guard calls
next() without a return statement, so control falls through and the two
hashing statements still run: the stored password is re-hashed on every
save, whether or not the password field was modified. bcrypt is an
external collaborator, passed as a function. -/
def preSaveHook (bcryptHash : String → String) (_isPasswordModified : Bool)
    (password : String) : String :=
  bcryptHash password

/-- The category-filter semantics the spec asserts (case-insensitive
substring match, the same semantics as the free-text search), written
from the spec wording for comparison with the code above. -/
def specCategoryFilter (store : List Txn) (uid : Nat) (c : String) : List Txn :=
  store.filter (fun t => t.user == uid && icontains t.category c)

/-- A sample transaction owned by user 10. -/
def demoTxn : Txn :=
  { id := 1, user := 10, type := "thu", category := "Salary", amount := 100,
    description := "tien luong thang 1", date := 50 }

/-- A one-record sample store. -/
def demoStore : List Txn :=
  [demoTxn]

/-- An update body supplying no fields. -/
def emptyBody : UpdateBody :=
  { user := none, type := none, category := none, amount := none,
    description := none, date := none }

/-- An update body supplying kind and amount only. -/
def updBody : UpdateBody :=
  { user := none, type := some "chi", category := none, amount := some 999,
    description := none, date := none }

/-- List parameters carrying only the category filter sal. -/
def catParams : ListParams :=
  { page := none, limit := none, type := none, category := some "sal",
    startDate := none, endDate := none, search := none, sort := none }

/-- A three-record sample store owned by user 7. -/
def demoStore3 : List Txn :=
  [ { id := 1, user := 7, type := "thu", category := "Salary", amount := 100,
      description := "a", date := 30 },
    { id := 2, user := 7, type := "chi", category := "Food", amount := 30,
      description := "b", date := 20 },
    { id := 3, user := 7, type := "chi", category := "Food", amount := 5,
      description := "c", date := 10 } ]

/-- List parameters with page size 2 and no filters. -/
def pageParams : ListParams :=
  { page := none, limit := some 2, type := none, category := none,
    startDate := none, endDate := none, search := none, sort := none }

/-! ## Helper lemmas -/

theorem insertSorted_length (le : Txn → Txn → Bool) (x : Txn) (l : List Txn) :
    (insertSorted le x l).length = l.length + 1 := by
  induction l with
  | nil => rfl
  | cons y ys ih =>
    simp only [insertSorted]
    by_cases h : le x y
    · simp [h]
    · simp [h, ih]

theorem sortBy_length (le : Txn → Txn → Bool) (l : List Txn) :
    (sortBy le l).length = l.length := by
  induction l with
  | nil => rfl
  | cons x xs ih =>
    simp only [sortBy]
    rw [insertSorted_length, ih, List.length_cons]

theorem sortTxns_length (key : String) (l : List Txn) :
    (sortTxns key l).length = l.length := by
  simp only [sortTxns]
  split
  · exact sortBy_length _ l
  · split
    · exact sortBy_length _ l
    · split
      · exact sortBy_length _ l
      · exact sortBy_length _ l

theorem ceil_le_mul (a P : Nat) (hP : 0 < P) : a ≤ ((a + P - 1) / P) * P := by
  rcases Nat.eq_zero_or_pos a with ha | ha
  · subst ha
    exact Nat.zero_le _
  · have he : a + P - 1 = (a - 1) + P := by omega
    rw [he, Nat.add_div_right _ hP]
    apply Nat.le_of_pred_lt
    calc a.pred = P * ((a - 1) / P) + (a - 1) % P := by
          rw [Nat.div_add_mod]
          rfl
      _ < P * ((a - 1) / P) + P := Nat.add_lt_add_left (Nat.mod_lt _ hP) _
      _ = ((a - 1) / P + 1) * P := by ring

theorem chunks_flatten {α : Type} (P : Nat) :
    ∀ (n : Nat) (l : List α), l.length ≤ n * P →
      (List.map (fun i => (l.drop (i * P)).take P) (List.range n)).flatten = l := by
  intro n
  induction n with
  | zero =>
    intro l hl
    have h0 : l = [] := List.length_eq_zero.mp (Nat.le_zero.mp (by simpa using hl))
    subst h0
    rfl
  | succ n ih =>
    intro l hl
    rw [List.range_succ_eq_map, List.map_cons, List.map_map, List.flatten_cons]
    have hdrop :
        List.map ((fun i => (l.drop (i * P)).take P) ∘ Nat.succ) (List.range n)
          = List.map (fun i => ((l.drop P).drop (i * P)).take P) (List.range n) := by
      apply List.map_congr_left
      intro i _
      simp only [Function.comp_apply]
      rw [List.drop_drop]
      congr 2
      rw [Nat.succ_mul, Nat.add_comm]
    have hlen : (l.drop P).length ≤ n * P := by
      rw [List.length_drop]
      apply Nat.sub_le_iff_le_add.mpr
      rw [Nat.succ_mul] at hl
      exact hl
    rw [hdrop, ih (l.drop P) hlen]
    simp [List.take_append_drop P l]

theorem statusOf_of_failure (r : AuthResult) (hr : isAuthFailure r = true) :
    statusOf r = some 401 := by
  cases r with
  | unauthenticated => rfl
  | invalidToken => rfl
  | unknownPrincipal => rfl
  | success u => simp [isAuthFailure] at hr

theorem findOne_eq_none_of_other_owner (store : List Txn) (A B i : Nat)
    (hAB : A ≠ B)
    (hall : ∀ x ∈ store, x.id = i → x.user = A) :
    findOne store i B = none := by
  apply List.find?_eq_none.mpr
  intro x hx hpx
  simp only [Bool.and_eq_true, beq_iff_eq] at hpx
  obtain ⟨hid, huser⟩ := hpx
  exact hAB ((hall x hx hid).symm.trans huser)

theorem findOne_eq_some_of_unique (store : List Txn) (uid : Nat) (t : Txn)
    (hmem : t ∈ store) (hown : t.user = uid)
    (huniq : ∀ x ∈ store, x.id = t.id → x = t) :
    findOne store t.id uid = some t := by
  have hsome : (List.find? (fun x => x.id == t.id && x.user == uid) store).isSome := by
    rw [List.find?_isSome]
    exact ⟨t, hmem, by simp [hown]⟩
  obtain ⟨y, hy⟩ := Option.isSome_iff_exists.mp hsome
  have hmemy := List.mem_of_find?_eq_some hy
  have hpy := List.find?_some hy
  simp only [Bool.and_eq_true, beq_iff_eq] at hpy
  have hyt : y = t := huniq y hmemy hpy.1
  unfold findOne
  rw [hy, hyt]

theorem matchesQuery_setPage (uid n : Nat) (p : ListParams) :
    matchesQuery uid (setPage p n) = matchesQuery uid p := by
  funext t
  simp [matchesQuery, typeCond, categoryCond, dateCond, searchCond, setPage]

theorem findOne_erased (store : List Txn) (i uid : Nat) :
    findOne (store.filter (fun x => x.id != i)) i uid = none := by
  apply List.find?_eq_none.mpr
  intro x hx hpx
  simp only [List.mem_filter, bne_iff_ne, ne_eq] at hx
  simp only [Bool.and_eq_true, beq_iff_eq] at hpx
  exact hx.2 hpx.1

/-! ## Claim theorems -/

/-- C1: for distinct users A and B and a transaction owned by A, the
get-by-id, update, and delete routes invoked with B as the acting
principal and the exact record id return the 404 not-found response,
leave the store unchanged, and are indistinguishable from the case where
no record with that id exists at all (erasing the record from the store
leaves every response identical). -/
theorem cross_user_access_notFound
    (store : List Txn) (A B : Nat) (t : Txn) (b : UpdateBody)
    (_hown : t.user = A) (hAB : A ≠ B)
    (hall : ∀ x ∈ store, x.id = t.id → x.user = A) :
    getById store B t.id = Except.error notFoundResp
    ∧ (updateById store B t.id b).1 = Except.error notFoundResp
    ∧ (updateById store B t.id b).2 = store
    ∧ (deleteById store B t.id).1 = Except.error notFoundResp
    ∧ (deleteById store B t.id).2 = store
    ∧ getById store B t.id = getById (store.filter (fun x => x.id != t.id)) B t.id
    ∧ (updateById store B t.id b).1
        = (updateById (store.filter (fun x => x.id != t.id)) B t.id b).1
    ∧ (deleteById store B t.id).1
        = (deleteById (store.filter (fun x => x.id != t.id)) B t.id).1 := by
  have hf : findOne store t.id B = none :=
    findOne_eq_none_of_other_owner store A B t.id hAB hall
  have hf' : findOne (store.filter (fun x => x.id != t.id)) t.id B = none :=
    findOne_erased store t.id B
  refine ⟨?_, ?_, ?_, ?_, ?_, ?_, ?_, ?_⟩ <;>
    simp [getById, updateById, deleteById, hf, hf']

/-- C1 witness: a store holding one transaction of user 10, accessed as
user 20. -/
theorem cross_user_access_notFound_witness :
    (10 : Nat) ≠ 20
    ∧ getById demoStore 20 demoTxn.id = Except.error notFoundResp
    ∧ (updateById demoStore 20 demoTxn.id emptyBody).2 = demoStore :=
  ⟨by decide,
   (cross_user_access_notFound demoStore 10 20 demoTxn emptyBody rfl (by decide) (by decide)).1,
   (cross_user_access_notFound demoStore 10 20 demoTxn emptyBody rfl (by decide) (by decide)).2.2.1⟩

/-- C2 counterexample: with the store holding one transaction of user 10
whose category is Salary, a list request with category filter sal returns
nothing (the code matches the category by exact equality), while the
claimed case-insensitive substring semantics returns the transaction, so
the two disagree. -/
theorem category_filter_substring_counterexample :
    (listTransactions demoStore 10 catParams).data = []
    ∧ specCategoryFilter demoStore 10 "sal" = [demoTxn]
    ∧ (listTransactions demoStore 10 catParams).data
        ≠ specCategoryFilter demoStore 10 "sal" := by
  decide

/-- C2 amended: for every non-empty category filter value, the returned
transactions are exactly those owned by the acting principal whose
category is exactly equal to the filter value (exact string match, not a
case-insensitive substring match). -/
theorem category_filter_exact_match (store : List Txn) (uid : Nat) (c : String)
    (hc : c ≠ "") :
    List.filter
        (matchesQuery uid
          { page := none, limit := none, type := none, category := some c,
            startDate := none, endDate := none, search := none, sort := none })
        store
      = List.filter (fun t => t.user == uid && t.category == c) store := by
  apply List.filter_congr
  intro t _
  simp [matchesQuery, typeCond, categoryCond, dateCond, searchCond, hc]

/-- C2 amended witness: filtering the sample store by its exact category
value. -/
theorem category_filter_exact_match_witness :
    ("Salary" : String) ≠ ""
    ∧ List.filter
        (matchesQuery 10
          { page := none, limit := none, type := none, category := some "Salary",
            startDate := none, endDate := none, search := none, sort := none })
        demoStore
      = List.filter (fun t => t.user == 10 && t.category == "Salary") demoStore :=
  ⟨by decide, category_filter_exact_match demoStore 10 "Salary" (by decide)⟩

/-- C3: the pre-save hook re-hashes the stored password even on a save
where the password field was not modified, because the isModified guard
calls next() without returning and the hashing statements still execute;
with any hash function that changes its input, an already-hashed stored
value does not survive such a save unchanged, contradicting the claim. -/
theorem preSave_rehashes_unmodified_password :
    (∀ (bcryptHash : String → String) (isModifiedPassword : Bool) (pw : String),
      preSaveHook bcryptHash isModifiedPassword pw = bcryptHash pw)
    ∧ preSaveHook (fun s => String.append "$2a$10$" s) false "HASHED"
        = "$2a$10$HASHED"
    ∧ preSaveHook (fun s => String.append "$2a$10$" s) false "HASHED" ≠ "HASHED" :=
  ⟨fun _ _ _ => rfl, rfl, by decide⟩

/-- Helper for C4: the data of a list request at a given page is the take
of the drop of the filtered-and-sorted set. -/
theorem listTransactions_setPage_data (store : List Txn) (uid : Nat)
    (p : ListParams) (n : Nat) :
    (listTransactions store uid (setPage p n)).data
      = ((sortedFiltered store uid p).drop ((n - 1) * limitOf p)).take (limitOf p) := by
  simp only [listTransactions, sortedFiltered]
  rw [matchesQuery_setPage]
  simp [setPage, limitOf, pageOf, sortKeyOf]

/-- C4: for every list request with page size P ≥ 1, the reported total is
the size of the filtered set ignoring pagination, the reported pages value
is ceil(total / P) (the natural-number ceiling formula), and concatenating
the data of pages 1 .. ceil(N / P) reproduces the full sorted filtered set
exactly, each transaction once (pagination is skip (page-1)*P then take P,
applied after filtering and sorting). -/
theorem pagination_pages_cover (store : List Txn) (uid : Nat) (p : ListParams)
    (hP : 1 ≤ limitOf p) :
    (listTransactions store uid p).total
        = (List.filter (matchesQuery uid p) store).length
    ∧ (listTransactions store uid p).pages
        = ((sortedFiltered store uid p).length + limitOf p - 1) / limitOf p
    ∧ (List.map (fun i => (listTransactions store uid (setPage p (i + 1))).data)
          (List.range
            (((sortedFiltered store uid p).length + limitOf p - 1) / limitOf p))).flatten
        = sortedFiltered store uid p := by
  have hlen : (sortedFiltered store uid p).length
      = (List.filter (matchesQuery uid p) store).length := by
    unfold sortedFiltered
    exact sortTxns_length _ _
  refine ⟨rfl, ?_, ?_⟩
  · simp [listTransactions, hlen]
  · have hmap :
        List.map (fun i => (listTransactions store uid (setPage p (i + 1))).data)
            (List.range
              (((sortedFiltered store uid p).length + limitOf p - 1) / limitOf p))
          = List.map (fun i => ((sortedFiltered store uid p).drop (i * limitOf p)).take (limitOf p))
              (List.range
                (((sortedFiltered store uid p).length + limitOf p - 1) / limitOf p)) := by
      apply List.map_congr_left
      intro i _
      rw [listTransactions_setPage_data]
      simp
    rw [hmap]
    exact chunks_flatten (limitOf p) _ _ (ceil_le_mul _ _ hP)

/-- C4 witness: three matching transactions, page size 2. -/
theorem pagination_pages_cover_witness :
    1 ≤ limitOf pageParams
    ∧ (List.map (fun i => (listTransactions demoStore3 7 (setPage pageParams (i + 1))).data)
          (List.range
            (((sortedFiltered demoStore3 7 pageParams).length + limitOf pageParams - 1)
              / limitOf pageParams))).flatten
        = sortedFiltered demoStore3 7 pageParams :=
  ⟨by decide, (pagination_pages_cover demoStore3 7 pageParams (by decide)).2.2⟩

/-- C5: with both date bounds supplied the list query matches exactly the
owned transactions with d1 ≤ date ≤ d2 (inclusive on both ends); each
bound supplied alone constrains only its own side; and when both bounds
are absent the query imposes no date constraint at all, leaving only the
ownership and other filter conditions. -/
theorem date_range_filter_inclusive (store : List Txn) (uid : Nat) (d1 d2 : Int) :
    (List.filter
        (matchesQuery uid
          { page := none, limit := none, type := none, category := none,
            startDate := some d1, endDate := some d2, search := none, sort := none })
        store
      = List.filter
          (fun t => t.user == uid && decide (d1 ≤ t.date) && decide (t.date ≤ d2)) store)
    ∧ (List.filter
        (matchesQuery uid
          { page := none, limit := none, type := none, category := none,
            startDate := some d1, endDate := none, search := none, sort := none })
        store
      = List.filter (fun t => t.user == uid && decide (d1 ≤ t.date)) store)
    ∧ (List.filter
        (matchesQuery uid
          { page := none, limit := none, type := none, category := none,
            startDate := none, endDate := some d2, search := none, sort := none })
        store
      = List.filter (fun t => t.user == uid && decide (t.date ≤ d2)) store)
    ∧ (∀ p : ListParams, p.startDate = none → p.endDate = none → ∀ t : Txn,
        matchesQuery uid p t
          = ((t.user == uid) && typeCond p t && categoryCond p t && searchCond p t)) := by
  refine ⟨?_, ?_, ?_, ?_⟩
  · apply List.filter_congr
    intro t _
    simp [matchesQuery, typeCond, categoryCond, dateCond, searchCond, Bool.and_assoc]
  · apply List.filter_congr
    intro t _
    simp [matchesQuery, typeCond, categoryCond, dateCond, searchCond, Bool.and_assoc]
  · apply List.filter_congr
    intro t _
    simp [matchesQuery, typeCond, categoryCond, dateCond, searchCond, Bool.and_assoc]
  · intro p hs he t
    simp [matchesQuery, dateCond, hs, he]

/-- C5 witness: the no-bounds case applied to a concrete request and
record. -/
theorem date_range_filter_inclusive_witness :
    pageParams.startDate = none
    ∧ pageParams.endDate = none
    ∧ matchesQuery 10 pageParams demoTxn
        = ((demoTxn.user == 10) && typeCond pageParams demoTxn
            && categoryCond pageParams demoTxn && searchCond pageParams demoTxn) :=
  ⟨rfl, rfl, (date_range_filter_inclusive demoStore 10 0 100).2.2.2 pageParams rfl rfl demoTxn⟩

/-- C6: the auth gate takes the cookie as the candidate token whenever the
cookie carries a token; with no cookie the candidate is exactly the
Bearer-header extraction; and with neither source present the request is
rejected as unauthenticated for every possible verifier and user store,
that is, before any verification or lookup can matter. -/
theorem auth_gate_source_order :
    (∀ (c : String) (h : Option String), c ≠ "" → extractToken (some c) h = some c)
    ∧ (∀ h : String,
        extractToken none (some h)
          = if jsStartsWith h "Bearer" then (splitParts h).get? 1 else none)
    ∧ (∀ (verify : String → Option Claims) (findById : Nat → Option UserRec),
        protect none none verify findById = AuthResult.unauthenticated) := by
  refine ⟨?_, ?_, ?_⟩
  · intro c h hc
    simp [extractToken, jsTruthy, hc]
  · intro h
    rfl
  · intro v f
    rfl

/-- C6 witness: a cookie token wins over a header, and an empty request is
unauthenticated. -/
theorem auth_gate_source_order_witness :
    ("tok" : String) ≠ ""
    ∧ extractToken (some "tok") (some "Bearer abc") = some "tok"
    ∧ protect none none (fun _ => none) (fun _ => none) = AuthResult.unauthenticated :=
  ⟨by decide,
   auth_gate_source_order.1 "tok" (some "Bearer abc") (by decide),
   auth_gate_source_order.2.2 (fun _ => none) (fun _ => none)⟩

/-- C7: any two protected requests that fail authentication — for any mix
of missing token, invalid token, and unknown subject — produce the same
externally observable status, namely 401, so the failing step is not
recoverable from the status. -/
theorem auth_failures_same_status
    (c1 h1 c2 h2 : Option String)
    (v1 v2 : String → Option Claims) (f1 f2 : Nat → Option UserRec)
    (hf1 : isAuthFailure (protect c1 h1 v1 f1) = true)
    (hf2 : isAuthFailure (protect c2 h2 v2 f2) = true) :
    statusOf (protect c1 h1 v1 f1) = statusOf (protect c2 h2 v2 f2)
    ∧ statusOf (protect c1 h1 v1 f1) = some 401 := by
  have e1 := statusOf_of_failure _ hf1
  have e2 := statusOf_of_failure _ hf2
  exact ⟨e1.trans e2.symm, e1⟩

/-- C7 witness: a request failing with no token and one failing with an
invalid token carry the same status. -/
theorem auth_failures_same_status_witness :
    protect none none (fun _ => none) (fun _ => none) = AuthResult.unauthenticated
    ∧ protect (some "bad") none (fun _ => none) (fun _ => none) = AuthResult.invalidToken
    ∧ statusOf (protect none none (fun _ => none) (fun _ => none))
        = statusOf (protect (some "bad") none (fun _ => none) (fun _ => none)) :=
  ⟨rfl, rfl,
   (auth_failures_same_status none none (some "bad") none (fun _ => none) (fun _ => none)
      (fun _ => none) (fun _ => none) rfl rfl).1⟩

/-- C8: verification rejects a token whose expiry has passed regardless of
its signature, rejects a non-matching signature, and rejects a malformed
payload, always with the same InvalidToken outcome (none); by its type it
consults nothing but the signing function, the clock, and the token. -/
theorem verify_rejects_expired_and_invalid
    (sigOf : TokenPayload → Nat) (now : Int) (t : SignedToken) :
    (∀ (i : Nat) (e : String) (iat ex : Int),
        t.payload = TokenPayload.wellFormed i e iat ex → ex ≤ now →
        verifyToken sigOf now t = none)
    ∧ (t.sig ≠ sigOf t.payload → verifyToken sigOf now t = none)
    ∧ (t.payload = TokenPayload.malformed → verifyToken sigOf now t = none) := by
  refine ⟨?_, ?_, ?_⟩
  · intro i e iat ex hp hex
    simp [verifyToken, hp, hex]
  · intro hs
    simp [verifyToken, hs]
  · intro hp
    simp [verifyToken, hp]

/-- C8 witness: an expired token whose signature is valid is still
rejected. -/
theorem verify_rejects_expired_and_invalid_witness :
    (SignedToken.mk (TokenPayload.wellFormed 1 "a@b.co" 0 10) 0).payload
        = TokenPayload.wellFormed 1 "a@b.co" 0 10
    ∧ (10 : Int) ≤ 10
    ∧ verifyToken (fun _ => 0) 10
        (SignedToken.mk (TokenPayload.wellFormed 1 "a@b.co" 0 10) 0) = none :=
  ⟨rfl, by decide,
   (verify_rejects_expired_and_invalid (fun _ => 0) 10
      (SignedToken.mk (TokenPayload.wellFormed 1 "a@b.co" 0 10) 0)).1
     1 "a@b.co" 0 10 rfl (by decide)⟩

/-- C9: updating an owned transaction merges the request body onto the
record: the route succeeds and returns the merged document, every
supplied field takes the new value, and every absent field — the owning
user id, kind, category, amount, description, and date alike — keeps its
value from before the update. -/
theorem update_merge_semantics
    (store : List Txn) (uid : Nat) (t : Txn) (b : UpdateBody)
    (hmem : t ∈ store) (hown : t.user = uid)
    (huniq : ∀ x ∈ store, x.id = t.id → x = t) :
    (updateById store uid t.id b).1 = Except.ok (applyUpdate t b)
    ∧ (∀ v, b.user = some v → (applyUpdate t b).user = v)
    ∧ (b.user = none → (applyUpdate t b).user = t.user)
    ∧ (∀ v, b.type = some v → (applyUpdate t b).type = v)
    ∧ (b.type = none → (applyUpdate t b).type = t.type)
    ∧ (∀ v, b.category = some v → (applyUpdate t b).category = v)
    ∧ (b.category = none → (applyUpdate t b).category = t.category)
    ∧ (∀ v, b.amount = some v → (applyUpdate t b).amount = v)
    ∧ (b.amount = none → (applyUpdate t b).amount = t.amount)
    ∧ (∀ v, b.description = some v → (applyUpdate t b).description = v)
    ∧ (b.description = none → (applyUpdate t b).description = t.description)
    ∧ (∀ v, b.date = some v → (applyUpdate t b).date = v)
    ∧ (b.date = none → (applyUpdate t b).date = t.date) := by
  have hf := findOne_eq_some_of_unique store uid t hmem hown huniq
  refine ⟨?_, ?_, ?_, ?_, ?_, ?_, ?_, ?_, ?_, ?_, ?_, ?_, ?_⟩
  · simp [updateById, hf]
  all_goals
    first
      | (intro v hv; simp [applyUpdate, hv])
      | (intro hv; simp [applyUpdate, hv])

/-- C9 witness: updating the sample transaction with a body supplying kind
and amount only. -/
theorem update_merge_semantics_witness :
    demoTxn ∈ demoStore
    ∧ (updateById demoStore 10 demoTxn.id updBody).1
        = Except.ok (applyUpdate demoTxn updBody)
    ∧ (applyUpdate demoTxn updBody).category = demoTxn.category :=
  ⟨by decide,
   (update_merge_semantics demoStore 10 demoTxn updBody (by decide) rfl (by decide)).1,
   (update_merge_semantics demoStore 10 demoTxn updBody (by decide) rfl
      (by decide)).2.2.2.2.2.2.1 rfl⟩

/-- C10: a protected request with no cookie and an Authorization header
that starts with Bearer but has no space-separated second part extracts no
token and is rejected as unauthenticated (not as an invalid token, and
with no crash), for every verifier and user store. -/
theorem bare_bearer_header_unauthenticated
    (h : String) (hb : jsStartsWith h "Bearer" = true)
    (hs : (splitParts h).get? 1 = none)
    (verify : String → Option Claims) (findById : Nat → Option UserRec) :
    protect none (some h) verify findById = AuthResult.unauthenticated := by
  have hs2 : (splitParts h)[1]? = none := by
    rw [← List.get?_eq_getElem?]
    exact hs
  simp [protect, extractToken, jsTruthy, hb, hs2]

/-- C10 witness: the bare header string Bearer. -/
theorem bare_bearer_header_unauthenticated_witness :
    jsStartsWith "Bearer" "Bearer" = true
    ∧ (splitParts "Bearer").get? 1 = none
    ∧ protect none (some "Bearer") (fun _ => none) (fun _ => none)
        = AuthResult.unauthenticated :=
  ⟨by decide, by decide,
   bare_bearer_header_unauthenticated "Bearer" (by decide) (by decide)
     (fun _ => none) (fun _ => none)⟩

end FinanceApp
